import Mathlib

/-!
# HttpServersAvailability: the prober (ServerStat) and the status server (StatBrowser)

A shallow embedding of `src/ServerStat/main.go` and `src/StatBrowser/main.go`.

* Go strings are Lean strings, `nil` errors and `nil` pointers are `none`.
* `time.Duration` is a signed 64-bit count of nanoseconds: an `Int` wrapped by `wrapInt64`.
* A function that can `panic` or call `log.Fatal` returns an `Outcome`.
* The network, the clock, the configuration library and the SQL driver are the
  environment: they are parameters of the functions that call them.
* One cycle of `workerUnit` runs several goroutines; it is a transition system
  (`Cycle`, `Action`, `step`) whose schedules are lists of actions.
-/

set_option autoImplicit false

/-! ## Shared runtime notions -/

/-- How a Go call ends: it returns a value, it panics with a message, or the
process exits (`log.Fatal` is `os.Exit(1)` after printing). -/
inductive Outcome (α : Type) where
  | ret (a : α)
  | panicked (msg : String)
  | exited (code : Nat)
  deriving Repr, DecidableEq

namespace Outcome

/-- Sequential composition: what follows a call runs only when the call returned. -/
def bind {α β : Type} (x : Outcome α) (f : α → Outcome β) : Outcome β :=
  match x with
  | ret a => f a
  | panicked m => panicked m
  | exited c => exited c

/-- The call returned (to its caller). -/
def returned {α : Type} : Outcome α → Bool
  | ret _ => true
  | _ => false

end Outcome

/-- Go `strings.HasPrefix(s, pre)`: `s` starts with `pre`. -/
def HasPrefix (s pre : String) : Bool := pre.data.isPrefixOf s.data

/-- Two-complement wrap of an integer into the int64 range, as Go integer
arithmetic on `int64` (and so on `time.Duration`) does. -/
def wrapInt64 (x : Int) : Int := (x + 2 ^ 63) % 2 ^ 64 - 2 ^ 63

namespace ServerStat

/-! ## Data model (`src/ServerStat/main.go`, lines 21-35) -/

/-- The `Settings` struct. -/
structure Settings where
  host : String
  port : String
  database : String
  user : String
  pass : String
  httptimeout_ms : Int
  servers : List String
  deriving Repr, DecidableEq

/-- The `ServerStatus` struct; `time` is a clock reading (a `time.Time`). -/
structure ServerStatus where
  available : Bool
  url : String
  time : Nat
  deriving Repr, DecidableEq

/-! ## The probe: `httpStatusChecker` (lines 122-149) -/

/-- The part of `http.Response` the checker reads. -/
structure Response where
  StatusCode : Int
  deriving Repr, DecidableEq

/-- What `client.Get(url)` hands back: the pair `(resp, err)` (either may be
`nil`), and how much the clock advanced while the call was in flight. -/
structure GetOutcome where
  resp : Option Response
  err : Option String
  elapsed : Nat
  deriving Repr, DecidableEq

/-- The `http.Client` literal of line 132: only `Timeout` is set, a `time.Duration`. -/
structure Client where
  Timeout : Int
  deriving Repr, DecidableEq

/-- The network as seen by `client.Get`: the outcome may depend on the client
(its timeout) and on the URL requested. -/
abbrev Network := Client → String → GetOutcome

/-- The constant `time.Second`, in nanoseconds. -/
def Second : Int := 1000000000

/-- The constant `time.Millisecond`, in nanoseconds. -/
def Millisecond : Int := 1000000

/-- Lines 124-126: the URL the checker goes on with. -/
def probeUrl (url : String) : String :=
  if !HasPrefix url "http" then "https://" ++ url else url

/-- The normalisation as the specification words it, for comparison with
`probeUrl`: a target that begins with the scheme prefix `http://` or `https://`
is kept, any other target gets `https://` in front. -/
def specNormalise (target : String) : String :=
  if HasPrefix target "http://" || HasPrefix target "https://" then target
  else "https://" ++ target

/-- Line 130: `time.Duration(time.Duration(timeout_ms) * time.Second)`. -/
def probeTimeout (timeout_ms : Int) : Int :=
  wrapInt64 (wrapInt64 timeout_ms * Second)

/-- Everything one call of `httpStatusChecker` does that can be observed. -/
structure ProbeRun where
  /-- the client the GET is issued with -/
  client : Client
  /-- the URL passed to `client.Get` -/
  requested : String
  /-- the clock reading when `client.Get` is called -/
  issuedAt : Nat
  /-- the record built at lines 138-142 -/
  status : ServerStatus
  /-- the channel `target` after line 148 -/
  target : List ServerStatus
  /-- the clock when the function is done -/
  clock : Nat
  deriving Repr, DecidableEq

/-- The function `httpStatusChecker(url, timeout_ms, target)`, run on network `net`
with the clock reading `now` at entry. The channel is the list of records sent
and not yet received, oldest first. The clock moves while `client.Get` is in
flight and `time.Now()` is read when the record is built, after the call. The
printing and the deferred close of the response body are left out. -/
def httpStatusChecker (net : Network) (now : Nat) (url : String) (timeout_ms : Int)
    (target : List ServerStatus) : ProbeRun :=
  let url := if !HasPrefix url "http" then "https://" ++ url else url
  let timeout := wrapInt64 (wrapInt64 timeout_ms * Second)
  let client : Client := { Timeout := timeout }
  -- resp, err := client.Get(url)
  let got := net client url
  let afterGet := now + got.elapsed
  let status : ServerStatus :=
    { time := afterGet
      url := url
      available := got.err.isNone &&
        (match got.resp with
         | some resp => decide (resp.StatusCode < 400)
         | none => false) }
  { client := client
    requested := url
    issuedAt := now
    status := status
    target := target ++ [status]
    clock := afterGet }

/-! ## Loading the settings: `readSettings` (lines 58-120)

The YAML library `github.com/olebedev/config` is not part of the repository: the
parsed document is a parameter, given by what its three accessors answer. The
signatures are those the call sites fix: `cfg.String` and `cfg.List` return a
value and an error, `cfg.UInt` returns a value only. -/

/-- An element of the `[]interface{}` that `cfg.List` returns. -/
inductive Value where
  | str (s : String)
  | int (n : Int)
  | bool (b : Bool)
  | null
  deriving Repr, DecidableEq

/-- A parsed configuration, `*config.Config`: the answers of `cfg.String(path)`,
`cfg.UInt(path)` and `cfg.List(path)`; an error is `some` text, `nil` is `none`. -/
structure Config where
  cfgString : String → String × Option String
  cfgUInt : String → Int
  cfgList : String → List Value × Option String

/-- The file system and the YAML parser as `readSettings` uses them:
`ioutil.ReadFile(location)` and `config.ParseYaml(text)`; the parser
yields `nil` (here `none`) for a text it rejects. -/
structure ConfigEnv where
  ReadFile : String → String × Option String
  ParseYaml : String → Option Config

/-- Lines 105-109: `serverList[idx] = item.(string)` for each item; the type
assertion panics on an item that is not a string. -/
def serverList : List Value → Outcome (List String)
  | [] => .ret []
  | .str s :: rest => (serverList rest).bind fun tail => .ret (s :: tail)
  | _ :: _ => .panicked "interface conversion: interface is not string"

/-- The function `readSettings(location)`. The variable `err` is threaded as in
the source: line 88 assigns `httptimeout_ms` only, so the test of line 89 reads
the `err` left by line 84. -/
def readSettings (env : ConfigEnv) (location : String) : Outcome Settings :=
  let (file, err) := env.ReadFile location
  if err.isSome then .panicked (err.getD "") else
  let yamlString := file
  -- cfg, _ := config.ParseYaml(yamlString)
  match env.ParseYaml yamlString with
  | none => .panicked "runtime error: invalid memory address or nil pointer dereference"
  | some cfg =>
    let (host, err) := cfg.cfgString "host"
    if err.isSome then .panicked "Failed to read \x27host\x27 from config" else
    let (port, err) := cfg.cfgString "port"
    if err.isSome then .panicked "Failed to read \x27port\x27 from config" else
    let (database, err) := cfg.cfgString "database"
    if err.isSome then .panicked "Failed to read \x27database\x27 from config" else
    let httptimeout_ms := cfg.cfgUInt "httptimeout_ms"
    if err.isSome then .panicked "Failed to read \x27httptimeout_msost\x27 from config" else
    let (servers, err) := cfg.cfgList "servers"
    if err.isSome then .panicked "Failed to read \x27servers\x27 from config" else
    let (user, err) := cfg.cfgString "user"
    if err.isSome then .panicked "Failed to read \x27user\x27 from config" else
    let (pass, err) := cfg.cfgString "pass"
    if err.isSome then .panicked "Failed to read \x27pass\x27 from config" else
    (serverList servers).bind fun serverList =>
    .ret
      { host := host
        port := port
        database := database
        servers := serverList
        httptimeout_ms := httptimeout_ms
        user := user
        pass := pass }

/-! ## Opening the store: `createConnection` (lines 151-189) -/

/-- The answers of the SQL driver to the five calls of `createConnection`, each
the error returned (`none` for `nil`). -/
structure SqlEnv where
  Open : String → Option String
  Ping : Option String
  PingContext : Option String
  Conn : Option String
  ConnPingContext : Option String

/-- The handle `*sql.DB`, known by the connection string it was opened with. -/
structure DB where
  connStr : String
  deriving Repr, DecidableEq

/-- The function `createConnection(connStr)`. The error of the ping with a
one-nanosecond deadline (line 167) is printed and not acted upon. -/
def createConnection (sql : SqlEnv) (connStr : String) : Outcome DB :=
  let db : DB := { connStr := connStr }
  match sql.Open connStr with
  | some err => .panicked err
  | none =>
    match sql.Ping with
    | some err => .panicked err
    | none =>
      match sql.Conn with
      | some err => .panicked err
      | none =>
        match sql.ConnPingContext with
        | some err => .panicked err
        | none => .ret db

/-! ## One cycle: `workerUnit` (lines 205-231)

After the settings are read and the store is open, the cycle is concurrent: the
driver (the goroutine running `workerUnit`), the monitor
(`monitorServerStatus`), one `httpStatusChecker` goroutine per target and one
`addRecord` goroutine per record received. A `Cycle` is the shared state, an
`Action` is one atomic piece of progress of one goroutine, and a schedule is a
list of actions. -/

/-- What the store answers to the insert of `addRecord`, `QueryRow(...).Scan(&id)`:
the generated id, or an error (in which case the row may or may not be stored). -/
inductive InsertResult where
  | id (lastInsertId : Int)
  | failed (err : String) (stored : Bool)
  deriving Repr, DecidableEq

/-- Everything one call of `addRecord` does that can be observed. -/
structure AddRun where
  /-- the WaitGroup counter after the deferred `wg.Done()` -/
  wg : Int
  /-- the rows of table `servers` inserted so far -/
  rows : List ServerStatus
  /-- how the call ended -/
  result : Outcome Unit
  deriving Repr, DecidableEq

/-- The function `addRecord(status, wg, db)` (lines 37-46). `wg.Done()` is
deferred, so it runs on the normal return and on the panic alike. -/
def addRecord (status : ServerStatus) (wg : Int) (rows : List ServerStatus)
    (ins : InsertResult) : AddRun :=
  match ins with
  | .failed err stored =>
    { wg := wg - 1
      rows := if stored then rows ++ [status] else rows
      result := .panicked err }
  | .id _ =>
    { wg := wg - 1
      rows := rows ++ [status]
      result := .ret () }

/-- One round of the loop of `monitorServerStatus(source, wg, db)` (lines 48-56):
the oldest record is taken from the channel `source` and an `addRecord`
goroutine is started on it. The result is the channel and the running
`addRecord` calls afterwards, `none` while the channel is empty (the receive
blocks). -/
def monitorServerStatus (source adders : List ServerStatus) :
    Option (List ServerStatus × List ServerStatus) :=
  match source with
  | [] => none
  | status :: rest => some (rest, adders ++ [status])

/-- The state shared by the goroutines of one cycle. The last three fields are
history: they record what has happened and no action reads them. -/
structure Cycle where
  /-- the settings read at line 207 -/
  settings : Settings
  /-- the targets the loop of line 223 has not reached yet -/
  pending : List String
  /-- the driver has returned from `wg.Wait()` (line 228) -/
  waited : Bool
  /-- the `httpStatusChecker` goroutines started and not yet done, by target -/
  checkers : List String
  /-- the contents of the channel `eventSource`, oldest first -/
  eventSource : List ServerStatus
  /-- the capacity the channel was made with (line 219) -/
  capacity : Nat
  /-- the `addRecord` goroutines started and not yet done, by record -/
  adders : List ServerStatus
  /-- the counter of the WaitGroup `wg` -/
  wg : Int
  /-- the rows this cycle has inserted in table `servers` -/
  rows : List ServerStatus
  /-- some `addRecord` has panicked -/
  panicked : Bool
  /-- history: the targets for which a checker has been started, in order -/
  dispatched : List String
  /-- history: the records sent on the channel, in order -/
  emitted : List ServerStatus
  /-- history: the records whose `addRecord` is done, in order -/
  done : List ServerStatus

/-- Lines 214-221: the state when the loop of line 223 is entered. -/
def Cycle.init (settings : Settings) : Cycle :=
  let iter := settings.servers.length
  { settings := settings
    pending := settings.servers
    waited := false
    checkers := []
    eventSource := []
    capacity := iter
    adders := []
    wg := (iter : Int)
    rows := []
    panicked := false
    dispatched := []
    emitted := []
    done := [] }

/-- One atomic piece of progress of one goroutine.
* `dispatch`: the driver runs one iteration of the loop of lines 223-226.
* `check i net now`: the `i`-th running checker runs to its end on network
  `net`, entered at clock reading `now`; its send needs room in the channel.
* `receive`: the monitor takes the oldest record and starts `addRecord` (lines 51-52).
* `persist j ins`: the `j`-th running `addRecord` runs to its end, the store
  answering `ins`.
* `wait`: the driver returns from `wg.Wait()`, which needs the counter at zero. -/
inductive Action where
  | dispatch
  | check (i : Nat) (net : Network) (now : Nat)
  | receive
  | persist (j : Nat) (ins : InsertResult)
  | wait

/-- The effect of an action, `none` when the goroutine cannot move (nothing to
do, a send on a full channel, a receive on an empty one, a wait on a non-zero
counter). A panic of `addRecord` is recorded and disables nothing: its deferred
`wg.Done()` runs before the runtime ends the process, and until then the other
goroutines may still be scheduled. -/
def step (c : Cycle) : Action → Option Cycle
  | .dispatch =>
    match c.pending with
    | [] => none
    | server :: rest =>
      some { c with
        pending := rest
        checkers := c.checkers ++ [server]
        dispatched := c.dispatched ++ [server] }
  | .check i net now =>
    match c.checkers[i]? with
    | none => none
    | some server =>
      if c.eventSource.length < c.capacity then
        let run := httpStatusChecker net now server c.settings.httptimeout_ms c.eventSource
        some { c with
          checkers := c.checkers.eraseIdx i
          eventSource := run.target
          emitted := c.emitted ++ [run.status] }
      else none
  | .receive =>
    match monitorServerStatus c.eventSource c.adders with
    | none => none
    | some (source, adders) =>
      some { c with
        eventSource := source
        adders := adders }
  | .persist j ins =>
    match c.adders[j]? with
    | none => none
    | some status =>
      let run := addRecord status c.wg c.rows ins
      some { c with
        adders := c.adders.eraseIdx j
        wg := run.wg
        rows := run.rows
        panicked := c.panicked || !run.result.returned
        done := c.done ++ [status] }
  | .wait =>
    if c.pending = [] ∧ c.wg = 0 ∧ c.waited = false then
      some { c with waited := true }
    else none

/-- Running a schedule: `none` as soon as one of its actions cannot move. -/
def exec (c : Cycle) : List Action → Option Cycle
  | [] => some c
  | a :: rest => (step c a).bind fun c₁ => exec c₁ rest

/-- The operating system and libraries around one run of `workerUnit`. -/
structure Env where
  config : ConfigEnv
  sql : SqlEnv

/-- Line 209: the connection string. -/
def connStr (settings : Settings) : String :=
  "postgres://" ++ settings.user ++ ":" ++ settings.pass ++ "@localhost:" ++
    settings.port ++ "/" ++ settings.database ++ "?sslmode=disable"

/-- The sequential head of `workerUnit` (lines 207-221): read the settings, open
the store, set up the counter and the channel. It yields the state in which the
goroutines start, or the panic that ended the cycle before. -/
def workerUnit (env : Env) : Outcome Cycle :=
  (readSettings env.config "settings.yaml").bind fun settings =>
  (createConnection env.sql (connStr settings)).bind fun _db =>
  .ret (Cycle.init settings)

/-- The number of actions a cycle in state `c` still has to take. -/
def Cycle.remaining (c : Cycle) : Nat :=
  4 * c.pending.length + 3 * c.checkers.length + 2 * c.eventSource.length +
    c.adders.length + (if c.waited then 0 else 1)

/-! ## Sample environments

Concrete documents, stores and networks on which the definitions above can be
evaluated. -/

/-- A parsed document given by three tables: the scalar keys, the integer keys
and the list keys. -/
structure Doc where
  strings : List (String × String)
  ints : List (String × Int)
  lists : List (String × List Value)
  deriving Repr, DecidableEq

/-- The accessors on a document: `cfgString` and `cfgList` answer an error for an
absent key; `cfgUInt` has no error to answer and gives the library default 0. -/
def Doc.config (d : Doc) : Config :=
  { cfgString := fun path =>
      match d.strings.lookup path with
      | some v => (v, none)
      | none => ("", some ("Nonexistent map key at " ++ path))
    cfgUInt := fun path => (d.ints.lookup path).getD 0
    cfgList := fun path =>
      match d.lists.lookup path with
      | some v => (v, none)
      | none => ([], some ("Nonexistent map key at " ++ path)) }

/-- The document without the key `path`. -/
def Doc.without (d : Doc) (path : String) : Doc :=
  { strings := d.strings.filter fun kv => kv.1 != path
    ints := d.ints.filter fun kv => kv.1 != path
    lists := d.lists.filter fun kv => kv.1 != path }

/-- A document with all seven keys and the target list `servers`. -/
def sampleDoc (servers : List String) : Doc :=
  { strings := [("host", "localhost"), ("port", "5432"), ("database", "status"),
      ("user", "postgres"), ("pass", "secret")]
    ints := [("httptimeout_ms", 2000)]
    lists := [("servers", servers.map Value.str)] }

/-- An environment in which `settings.yaml` holds the document `d` and the store
accepts the connection. -/
def sampleEnv (d : Doc) : Env :=
  { config :=
      { ReadFile := fun _ => ("", none)
        ParseYaml := fun _ => some d.config }
    sql :=
      { Open := fun _ => none
        Ping := none
        PingContext := none
        Conn := none
        ConnPingContext := none } }

/-- The settings that `readSettings` builds from `sampleDoc servers`. -/
def sampleSettings (servers : List String) : Settings :=
  { host := "localhost"
    port := "5432"
    database := "status"
    user := "postgres"
    pass := "secret"
    httptimeout_ms := 2000
    servers := servers }

/-- A network on which every GET is answered 200 after 3 clock ticks. -/
def sampleNet : Network := fun _ _ => { resp := some { StatusCode := 200 }, err := none, elapsed := 3 }

/-- A network on which every GET fails without a response after 7 clock ticks. -/
def deadNet : Network := fun _ _ => { resp := none, err := some "dial tcp: no such host", elapsed := 7 }

/-- A schedule for two targets: both checkers are started, the second ends
first (on `deadNet`), then the first (on `sampleNet`), both records are
received, and the insert of the first record received succeeds. -/
def sampleSchedule : List Action :=
  [.dispatch, .dispatch, .check 1 deadNet 10, .check 0 sampleNet 11, .receive, .receive,
    .persist 0 (.id 1)]

/-- The state that `sampleSchedule` reaches on the targets example.com and
httpbin.org: one `addRecord` is done, the other is running. -/
def sampleMidCycle : Cycle :=
  { settings := sampleSettings ["example.com", "httpbin.org"]
    pending := []
    waited := false
    checkers := []
    eventSource := []
    capacity := 2
    adders := [⟨true, "https://example.com", 14⟩]
    wg := 1
    rows := [⟨false, "httpbin.org", 17⟩]
    panicked := false
    dispatched := ["example.com", "httpbin.org"]
    emitted := [⟨false, "httpbin.org", 17⟩, ⟨true, "https://example.com", 14⟩]
    done := [⟨false, "httpbin.org", 17⟩] }

/-- The schedule `sampleSchedule` run on to the end of the cycle: the second
insert succeeds and the driver returns from its wait. -/
def sampleFullSchedule : List Action :=
  sampleSchedule ++ [.persist 0 (.id 2), .wait]

/-- The state after `sampleFullSchedule`. -/
def sampleEndCycle : Cycle :=
  { sampleMidCycle with
    waited := true
    adders := []
    wg := 0
    rows := [⟨false, "httpbin.org", 17⟩, ⟨true, "https://example.com", 14⟩]
    done := [⟨false, "httpbin.org", 17⟩, ⟨true, "https://example.com", 14⟩] }

/-- The invariant of a cycle run on `settings`: what every state reached from
`Cycle.init settings` satisfies. -/
structure Cycle.Inv (settings : Settings) (c : Cycle) : Prop where
  /-- the settings are never written -/
  settings_eq : c.settings = settings
  /-- the loop of line 223 walks the target list in order, one checker each -/
  dispatched_pending : c.dispatched ++ c.pending = settings.servers
  /-- each checker started is still running or has sent exactly one record -/
  emitted_checkers :
    List.Perm (c.emitted.map (fun st => st.url) ++ c.checkers.map probeUrl)
      (c.dispatched.map probeUrl)
  /-- each record sent is in the channel, or with a running `addRecord`, or done -/
  emitted_split : List.Perm (c.eventSource ++ c.adders ++ c.done) c.emitted
  /-- the counter is the target count less the `addRecord` calls done -/
  counter : c.wg = (settings.servers.length : Int) - (c.done.length : Int)
  /-- the channel has room for one record per target -/
  capacity_eq : c.capacity = settings.servers.length
  /-- the driver gets past `wg.Wait()` only after the loop and at counter zero -/
  waited_zero : c.waited = true → c.pending = [] ∧ c.wg = 0
  /-- the rows inserted are records done, and all of them unless a call panicked -/
  rows_done : List.Sublist c.rows c.done ∧ (c.panicked = false → c.rows = c.done)

end ServerStat

namespace StatBrowser

/-! ## The status server (`src/StatBrowser/main.go`) -/

/-- The `ServerStatus` struct of the status server (lines 27-31): three strings. -/
structure ServerStatus where
  Available : String
  Url : String
  Time : String
  deriving Repr, DecidableEq

/-- The slice type `ServerStatuses`. -/
abbrev ServerStatuses := List ServerStatus

/-- The result set of the select, `*sql.Rows`: for each row that `rows.Next()`
reaches, what `rows.Scan(&url, &available, &time)` gives (the three columns, and
the error if the row cannot be scanned), and what `rows.Err()` reports once
`rows.Next()` has answered false. -/
structure Rows where
  scans : List ((String × String × String) × Option String)
  Err : Option String
  deriving Repr, DecidableEq

/-- The store as `refresh` sees it: the answer of `db.Query` to the select of
line 199, the rows and the error. -/
structure DB where
  Query : Rows × Option String
  deriving Repr, DecidableEq

/-- Lines 207-226: the loop over the rows, from the statuses collected so far.
A row that cannot be scanned ends in `log.Fatal(err)`, which exits the process
with code 1, so the `return statuses, err` of line 216 is never reached. -/
def refreshRows : List ((String × String × String) × Option String) → ServerStatuses →
    Outcome ServerStatuses
  | [], statuses => .ret statuses
  | ((url, available, time), err) :: rest, statuses =>
    if err.isSome then .exited 1 else
    let status : ServerStatus := { Time := time, Available := available, Url := url }
    refreshRows rest (statuses ++ [status])

/-- The function `refresh(db)` (lines 197-234): the statuses and the error returned. -/
def refresh (db : DB) : Outcome (ServerStatuses × Option String) :=
  let (rows, err) := db.Query
  if err.isSome then .panicked (err.getD "") else
  (refreshRows rows.scans []).bind fun statuses =>
  let err := rows.Err
  if err.isSome then .exited 1 else
  .ret (statuses, err)

/-- The part of `*http.Request` the handler reads. -/
structure Request where
  Method : String
  deriving Repr, DecidableEq

/-- The state of an `http.ResponseWriter`: the header map being prepared, the
status line and header sent (once `WriteHeader` has run), and the body written. -/
structure ResponseWriter where
  header : List (String × String)
  status : Option Nat
  sentHeader : List (String × String)
  body : String
  deriving Repr, DecidableEq

namespace ResponseWriter

/-- A fresh writer, as the server hands it to a handler. -/
def fresh : ResponseWriter :=
  { header := [], status := none, sentHeader := [], body := "" }

/-- The call `w.Header().Set(key, value)`. -/
def Set (w : ResponseWriter) (key value : String) : ResponseWriter :=
  { w with header := (key, value) :: w.header.filter fun kv => kv.1 != key }

/-- The call `w.Header().Del(key)`. -/
def Del (w : ResponseWriter) (key : String) : ResponseWriter :=
  { w with header := w.header.filter fun kv => kv.1 != key }

/-- The call `w.WriteHeader(code)`: the first call sends the status and the header;
a later one is ignored (the server logs it as superfluous). -/
def WriteHeader (w : ResponseWriter) (code : Nat) : ResponseWriter :=
  match w.status with
  | some _ => w
  | none => { w with status := some code, sentHeader := w.header }

/-- The call `w.Write(text)`: sends status 200 first if no status was sent yet. -/
def Write (w : ResponseWriter) (text : String) : ResponseWriter :=
  let w := w.WriteHeader 200
  { w with body := w.body ++ text }

end ResponseWriter

/-- The library function `http.Error(w, error, code)`: plain-text content type,
the status `code`, then the text and a newline as body. -/
def Error (w : ResponseWriter) (error : String) (code : Nat) : ResponseWriter :=
  let w := w.Del "Content-Length"
  let w := w.Set "Content-Type" "text/plain; charset=utf-8"
  let w := w.Set "X-Content-Type-Options" "nosniff"
  let w := w.WriteHeader code
  w.Write (error ++ "\n")

/-- The status code `http.StatusMethodNotAllowed`. -/
def StatusMethodNotAllowed : Nat := 405

/-- The status code `http.StatusInternalServerError`. -/
def StatusInternalServerError : Nat := 500

/-- The constant `http.MethodPost`. -/
def MethodPost : String := "POST"

/-- The handler of `/refresh` (lines 85-106). `encode` is `json.Marshal` as the
encoder uses it: the text of the results (with the newline `Encode` appends) and
the error; on success the encoder writes the text to `w`. A panic of `refresh`
unwinds the handler; an exit ends the process. -/
def refreshHandler (db : DB) (encode : ServerStatuses → String × Option String)
    (w : ResponseWriter) (r : Request) : Outcome ResponseWriter :=
  let w := if r.Method == MethodPost then
      Error w "Only GET method is allowed" StatusMethodNotAllowed
    else w
  let w := w.Set "Content-Type" "application/json"
  (refresh db).bind fun (results, err) =>
  let w := if err.isSome then Error w (err.getD "") StatusInternalServerError else w
  let (text, err) := encode results
  let w := if err.isSome then Error w (err.getD "") StatusInternalServerError
    else w.Write text
  .ret w

/-! ## Sample stores and encoder -/

/-- An encoder in the manner of `encoding/json` for texts that need no escaping:
`null` for the nil slice, else the array of objects, and the closing newline. -/
def sampleEncode (results : ServerStatuses) : String × Option String :=
  match results with
  | [] => ("null\n", none)
  | _ =>
    ("[" ++ ",".intercalate (results.map fun st =>
        "\x7b\"Available\":\"" ++ st.Available ++ "\",\"Url\":\"" ++ st.Url ++
          "\",\"Time\":\"" ++ st.Time ++ "\"\x7d") ++ "]\n", none)

/-- A store holding one recent row. -/
def sampleDB : DB :=
  { Query := ({ scans := [(("https://example.com", "true", "2019-02-01T10:00:00Z"), none)],
                Err := none }, none) }

/-- A store on which the select fails. -/
def queryFailsDB : DB :=
  { Query := ({ scans := [], Err := none }, some "pq: relation servers does not exist") }

/-- A store whose only row cannot be scanned. -/
def scanFailsDB : DB :=
  { Query := ({ scans := [(("", "", ""), some "sql: Scan error on column index 1")],
                Err := none }, none) }

/-- A store whose row iteration reports an error after one row. -/
def iterationFailsDB : DB :=
  { Query := ({ scans := [(("https://example.com", "true", "2019-02-01T10:00:00Z"), none)],
                Err := some "driver: bad connection" }, none) }

/-- The response the handler writes for `sampleDB` when nothing goes wrong and no
error was written before: status 200 and the one row as JSON. -/
def sampleServed : ResponseWriter :=
  { header := [("Content-Type", "application/json")]
    status := some 200
    sentHeader := [("Content-Type", "application/json")]
    body := "[\x7b\"Available\":\"true\",\"Url\":\"https://example.com\",\"Time\":\"2019-02-01T10:00:00Z\"\x7d]\n" }

end StatBrowser

/-! # Theorems -/

namespace ServerStat

/-! ## The probe -/

/-- The checker requests the URL of lines 124-126 with the timeout of line 130. -/
theorem httpStatusChecker_request (net : Network) (now : Nat) (url : String)
    (timeout_ms : Int) (target : List ServerStatus) :
    (httpStatusChecker net now url timeout_ms target).requested = probeUrl url ∧
    (httpStatusChecker net now url timeout_ms target).client.Timeout =
      probeTimeout timeout_ms ∧
    (httpStatusChecker net now url timeout_ms target).status.url = probeUrl url :=
  ⟨rfl, rfl, rfl⟩

/-- The checker sends exactly one record: the channel grows by the record built. -/
theorem httpStatusChecker_target (net : Network) (now : Nat) (url : String)
    (timeout_ms : Int) (target : List ServerStatus) :
    (httpStatusChecker net now url timeout_ms target).target =
      target ++ [(httpStatusChecker net now url timeout_ms target).status] :=
  rfl

/-- C1: whatever `client.Get` hands back, the record sent has `available` true
exactly when the error is nil, the response is not nil and its status code is
below 400; a non-nil error gives `available` false; and the record is sent on
the channel in every case. -/
theorem available_iff (net : Network) (now : Nat) (url : String) (timeout_ms : Int)
    (target : List ServerStatus) :
    ((httpStatusChecker net now url timeout_ms target).status.available = true ↔
      (net (httpStatusChecker net now url timeout_ms target).client
          (httpStatusChecker net now url timeout_ms target).requested).err = none ∧
      ∃ resp : Response,
        (net (httpStatusChecker net now url timeout_ms target).client
          (httpStatusChecker net now url timeout_ms target).requested).resp = some resp ∧
        resp.StatusCode < 400) ∧
    ((net (httpStatusChecker net now url timeout_ms target).client
          (httpStatusChecker net now url timeout_ms target).requested).err ≠ none →
      (httpStatusChecker net now url timeout_ms target).status.available = false) ∧
    (httpStatusChecker net now url timeout_ms target).target =
      target ++ [(httpStatusChecker net now url timeout_ms target).status] := by
  refine ⟨?_, ?_, rfl⟩
  · simp only [httpStatusChecker]
    generalize net _ _ = got
    rcases got with ⟨resp, err, elapsed⟩
    cases err <;> cases resp <;> simp
  · simp only [httpStatusChecker]
    generalize net _ _ = got
    rcases got with ⟨resp, err, elapsed⟩
    cases err <;> simp

/-- C1 at three outcomes: a 200 answer is available, a 404 answer is not, and a
transport error (no response) is not. -/
theorem available_iff_witness :
    (httpStatusChecker (fun _ _ => ⟨some ⟨200⟩, none, 3⟩) 10 "example.com" 2 []).status.available
      = true ∧
    (httpStatusChecker (fun _ _ => ⟨some ⟨404⟩, none, 3⟩) 10 "example.com" 2 []).status.available
      = false ∧
    (httpStatusChecker (fun _ _ => ⟨none, some "dial tcp: no such host", 3⟩) 10
      "example.com" 2 []).status.available = false :=
  ⟨(available_iff (fun _ _ => ⟨some ⟨200⟩, none, 3⟩) 10 "example.com" 2 []).1.mpr
      ⟨rfl, ⟨200⟩, rfl, by decide⟩,
    by decide,
    (available_iff (fun _ _ => ⟨none, some "dial tcp: no such host", 3⟩) 10
      "example.com" 2 []).2.1 (by simp)⟩

/-- A target that does not start with the four letters http is requested with
the scheme https put in front. -/
theorem probeUrl_of_not_http (url : String) (h : HasPrefix url "http" = false) :
    probeUrl url = "https://" ++ url := by
  simp [probeUrl, h]

/-- A target that starts with the four letters http is requested unchanged. -/
theorem probeUrl_of_http (url : String) (h : HasPrefix url "http" = true) :
    probeUrl url = url := by
  simp [probeUrl, h]

/-- A string that starts with a longer text starts with each of its beginnings. -/
theorem HasPrefix_of_append (s p q : String) (h : HasPrefix s (p ++ q) = true) :
    HasPrefix s p = true := by
  simp only [HasPrefix, String.data_append, List.isPrefixOf_iff_prefix] at h ⊢
  exact (List.prefix_append p.data q.data).trans h

/-- A target that starts with one of the scheme prefixes is requested unchanged. -/
theorem probeUrl_of_scheme (url : String)
    (h : HasPrefix url "http://" = true ∨ HasPrefix url "https://" = true) :
    probeUrl url = url := by
  apply probeUrl_of_http
  rcases h with h | h
  · exact HasPrefix_of_append url "http" "://" h
  · exact HasPrefix_of_append url "http" "s://" h

/-- C2 at the target httpbin.org: it starts with neither scheme prefix, and the
checker requests and records it as it is, without the scheme https in front. -/
theorem probeUrl_httpbin (net : Network) (now : Nat) (timeout_ms : Int)
    (target : List ServerStatus) :
    HasPrefix "httpbin.org" "http://" = false ∧
    HasPrefix "httpbin.org" "https://" = false ∧
    (httpStatusChecker net now "httpbin.org" timeout_ms target).requested = "httpbin.org" ∧
    (httpStatusChecker net now "httpbin.org" timeout_ms target).status.url = "httpbin.org" ∧
    (httpStatusChecker net now "httpbin.org" timeout_ms target).requested ≠
      "https://" ++ "httpbin.org" := by
  refine ⟨by decide, by decide, ?_, ?_, ?_⟩
  · exact (httpStatusChecker_request net now "httpbin.org" timeout_ms target).1.trans
      (by decide)
  · exact (httpStatusChecker_request net now "httpbin.org" timeout_ms target).2.2.trans
      (by decide)
  · rw [(httpStatusChecker_request net now "httpbin.org" timeout_ms target).1]
    decide

/-- For a timeout setting from 0 to 9223372036 the client timeout is that many
seconds. -/
theorem probeTimeout_seconds (timeout_ms : Int) (h0 : 0 ≤ timeout_ms)
    (h1 : timeout_ms ≤ 9223372036) :
    probeTimeout timeout_ms = timeout_ms * 1000000000 := by
  unfold probeTimeout wrapInt64 Second
  norm_num
  omega

/-- C4 at the setting 2000: the client timeout is 2000 seconds
(2000000000000 ns), not 2000 milliseconds (2000000000 ns). -/
theorem probeTimeout_2000 (net : Network) (now : Nat) (url : String)
    (target : List ServerStatus) :
    (httpStatusChecker net now url 2000 target).client.Timeout = 2000000000000 ∧
    (httpStatusChecker net now url 2000 target).client.Timeout = 2000 * Second ∧
    (httpStatusChecker net now url 2000 target).client.Timeout ≠ 2000 * Millisecond := by
  have h : (httpStatusChecker net now url 2000 target).client.Timeout = 2000000000000 :=
    (httpStatusChecker_request net now url 2000 target).2.1.trans (by decide)
  refine ⟨h, h.trans (by decide), ?_⟩
  rw [h]
  decide

/-- C6, refuted: a GET issued at clock reading 100 that takes 5 ticks gives a
record stamped 105, the reading after the GET, not 100. -/
theorem time_not_at_initiation :
    (httpStatusChecker (fun _ _ => ⟨some ⟨200⟩, none, 5⟩) 100 "example.com" 2 []).issuedAt
      = 100 ∧
    (httpStatusChecker (fun _ _ => ⟨some ⟨200⟩, none, 5⟩) 100 "example.com" 2 []).status.time
      = 105 ∧
    (httpStatusChecker (fun _ _ => ⟨some ⟨200⟩, none, 5⟩) 100 "example.com" 2 []).status.time ≠
    (httpStatusChecker (fun _ _ => ⟨some ⟨200⟩, none, 5⟩) 100 "example.com" 2 []).issuedAt := by
  decide

/-- C6, amended: the timestamp of the record is the clock reading after
`client.Get` has returned: the reading at which the GET was issued plus the time
the GET took, which is the reading when the function is done. -/
theorem time_after_get (net : Network) (now : Nat) (url : String) (timeout_ms : Int)
    (target : List ServerStatus) :
    (httpStatusChecker net now url timeout_ms target).status.time =
      (httpStatusChecker net now url timeout_ms target).issuedAt +
      (net (httpStatusChecker net now url timeout_ms target).client
        (httpStatusChecker net now url timeout_ms target).requested).elapsed ∧
    (httpStatusChecker net now url timeout_ms target).status.time =
      (httpStatusChecker net now url timeout_ms target).clock :=
  ⟨rfl, rfl⟩

end ServerStat

namespace ServerStat

/-! ## One cycle of `workerUnit` -/

/-- Taking the element at a position out of a list leaves a permutation. -/
theorem perm_cons_eraseIdx {α : Type} (l : List α) (i : Nat) (x : α)
    (h : l[i]? = some x) : List.Perm l (x :: l.eraseIdx i) := by
  induction l generalizing i with
  | nil => simp at h
  | cons y ys ih =>
    cases i with
    | zero =>
      simp at h
      subst h
      simp
    | succ i =>
      simp at h
      simp only [List.eraseIdx_cons_succ]
      exact ((ih i h).cons y).trans (List.Perm.swap x y _)

/-- Taking an element out of a list shortens it by one. -/
theorem length_eraseIdx_add_one {α : Type} (l : List α) (i : Nat) (x : α)
    (h : l[i]? = some x) : (l.eraseIdx i).length + 1 = l.length := by
  have := (perm_cons_eraseIdx l i x h).length_eq
  simp at this
  omega

/-- The counts that the invariant fixes. -/
theorem inv_counts {settings : Settings} {c : Cycle} (h : Cycle.Inv settings c) :
    c.dispatched.length + c.pending.length = settings.servers.length ∧
    c.emitted.length + c.checkers.length = c.dispatched.length ∧
    c.eventSource.length + c.adders.length + c.done.length = c.emitted.length := by
  have h1 := congrArg List.length h.dispatched_pending
  have h2 := h.emitted_checkers.length_eq
  have h3 := h.emitted_split.length_eq
  simp at h1 h2 h3
  omega

/-- The invariant holds when the goroutines start. -/
theorem inv_init (settings : Settings) : Cycle.Inv settings (Cycle.init settings) := by
  constructor <;> simp [Cycle.init]

/-- The monitor moves exactly when the channel holds a record: it takes the
oldest one and starts an `addRecord` on it. -/
theorem step_receive {c c₁ : Cycle} :
    step c .receive = some c₁ ↔
      ∃ status rest, c.eventSource = status :: rest ∧
        c₁ = { c with eventSource := rest, adders := c.adders ++ [status] } := by
  simp only [ServerStat.step, monitorServerStatus]
  cases he : c.eventSource with
  | nil => simp
  | cons status rest =>
    simp only [Option.some.injEq, List.cons.injEq]
    constructor
    · intro h
      exact ⟨status, rest, ⟨rfl, rfl⟩, h.symm⟩
    · rintro ⟨status₁, rest₁, ⟨rfl, rfl⟩, h⟩
      exact h.symm

/-- Every action keeps the invariant. -/
theorem inv_step {settings : Settings} {c c₁ : Cycle} {a : Action}
    (h : Cycle.Inv settings c) (hs : step c a = some c₁) : Cycle.Inv settings c₁ := by
  obtain ⟨n1, n2, n3⟩ := inv_counts h
  cases a with
  | dispatch =>
    simp only [ServerStat.step] at hs
    split at hs
    · cases hs
    · rename_i server rest hp
      cases hs
      have hd := h.dispatched_pending
      rw [hp] at hd
      constructor
      · exact h.settings_eq
      · simpa using hd
      · simp only [List.map_append, List.map_cons, List.map_nil]
        rw [← List.append_assoc]
        exact h.emitted_checkers.append_right _
      · exact h.emitted_split
      · exact h.counter
      · exact h.capacity_eq
      · intro hw
        have := (h.waited_zero hw).1
        rw [hp] at this
        cases this
      · exact h.rows_done
  | check i net now =>
    simp only [ServerStat.step] at hs
    split at hs
    · cases hs
    · rename_i server hi
      split at hs
      · cases hs
        have hperm := perm_cons_eraseIdx c.checkers i server hi
        constructor
        · exact h.settings_eq
        · exact h.dispatched_pending
        · simp only [List.map_append, List.map_cons, List.map_nil, List.append_assoc,
            List.singleton_append]
          refine List.Perm.trans ?_ h.emitted_checkers
          refine List.Perm.append_left _ ?_
          exact (hperm.map probeUrl).symm
        · simp only [httpStatusChecker_target]
          have := h.emitted_split.append_right
            [(httpStatusChecker net now server c.settings.httptimeout_ms c.eventSource).status]
          refine List.Perm.trans ?_ this
          simp only [List.append_assoc]
          refine List.Perm.append_left _ ?_
          refine List.Perm.trans List.perm_append_comm ?_
          simp only [List.append_assoc]
          exact List.Perm.refl _
        · exact h.counter
        · exact h.capacity_eq
        · exact h.waited_zero
        · exact h.rows_done
      · cases hs
  | receive =>
    obtain ⟨status, rest, he, rfl⟩ := step_receive.mp hs
    have hsplit := h.emitted_split
    rw [he] at hsplit
    constructor
    · exact h.settings_eq
    · exact h.dispatched_pending
    · exact h.emitted_checkers
    · refine List.Perm.trans ?_ hsplit
      have hm : List.Perm ((rest ++ c.adders) ++ status :: c.done)
          (status :: ((rest ++ c.adders) ++ c.done)) := List.perm_middle
      simpa [List.append_assoc] using hm
    · exact h.counter
    · exact h.capacity_eq
    · exact h.waited_zero
    · exact h.rows_done
  | persist j ins =>
    simp only [ServerStat.step] at hs
    split at hs
    · cases hs
    · rename_i status hj
      cases hs
      have hperm := perm_cons_eraseIdx c.adders j status hj
      have hlen := length_eraseIdx_add_one c.adders j status hj
      have hwg : (addRecord status c.wg c.rows ins).wg = c.wg - 1 := by
        cases ins <;> rfl
      constructor
      · exact h.settings_eq
      · exact h.dispatched_pending
      · exact h.emitted_checkers
      · refine List.Perm.trans ?_ h.emitted_split
        simp only [List.append_assoc]
        refine List.Perm.append_left _ ?_
        refine List.Perm.trans ?_ (hperm.append_right c.done).symm
        simp only [List.cons_append]
        refine List.Perm.trans ?_ List.perm_middle
        refine List.Perm.append_left _ ?_
        exact List.perm_append_comm
      · have := h.counter
        simp only [hwg, List.length_append, List.length_singleton]
        push_cast
        omega
      · exact h.capacity_eq
      · intro hw
        exfalso
        have hz := (h.waited_zero hw)
        have hc := h.counter
        rw [hz.2] at hc
        omega
      · obtain ⟨hsub, heq⟩ := h.rows_done
        constructor
        · cases ins with
          | id _ =>
            simp only [addRecord]
            exact hsub.append (List.Sublist.refl _)
          | failed err stored =>
            simp only [addRecord]
            cases stored
            · simpa using hsub.trans (List.sublist_append_left _ _)
            · simpa using hsub.append (List.Sublist.refl [status])
        · intro hp
          cases ins with
          | id _ =>
            simp only [addRecord, Outcome.returned, Bool.not_true, Bool.or_false] at hp ⊢
            rw [heq hp]
          | failed err stored =>
            simp [addRecord, Outcome.returned] at hp
  | wait =>
    simp only [ServerStat.step] at hs
    split at hs
    · rename_i hg
      cases hs
      constructor
      · exact h.settings_eq
      · exact h.dispatched_pending
      · exact h.emitted_checkers
      · exact h.emitted_split
      · exact h.counter
      · exact h.capacity_eq
      · intro _
        exact ⟨hg.1, hg.2.1⟩
      · exact h.rows_done
    · cases hs

/-- Every state a schedule reaches keeps the invariant. -/
theorem inv_exec {settings : Settings} {c c₁ : Cycle} (sched : List Action)
    (h : Cycle.Inv settings c) (hs : exec c sched = some c₁) : Cycle.Inv settings c₁ := by
  induction sched generalizing c with
  | nil =>
    simp only [ServerStat.exec, Option.some.injEq] at hs
    exact hs ▸ h
  | cons a rest ih =>
    simp only [ServerStat.exec] at hs
    cases hstep : ServerStat.step c a with
    | none => simp [hstep] at hs
    | some c₂ =>
      rw [hstep] at hs
      exact ih (inv_step h hstep) hs

/-- Every action uses up exactly one of the actions the cycle has left, so a
schedule is never longer than `remaining` of its start. -/
theorem remaining_step {c c₁ : Cycle} {a : Action} (hs : step c a = some c₁) :
    c₁.remaining + 1 = c.remaining := by
  cases a with
  | dispatch =>
    simp only [ServerStat.step] at hs
    split at hs
    · cases hs
    · rename_i server rest hp
      cases hs
      simp only [Cycle.remaining, hp, List.length_append, List.length_cons, List.length_nil]
      omega
  | check i net now =>
    simp only [ServerStat.step] at hs
    split at hs
    · cases hs
    · rename_i server hi
      have hlen := length_eraseIdx_add_one c.checkers i server hi
      split at hs
      · cases hs
        simp only [Cycle.remaining, httpStatusChecker_target, List.length_append,
          List.length_cons, List.length_nil]
        omega
      · cases hs
  | receive =>
    obtain ⟨status, rest, he, rfl⟩ := step_receive.mp hs
    simp only [Cycle.remaining, he, List.length_append, List.length_cons, List.length_nil]
    omega
  | persist j ins =>
    simp only [ServerStat.step] at hs
    split at hs
    · cases hs
    · rename_i status hj
      have hlen := length_eraseIdx_add_one c.adders j status hj
      cases hs
      simp only [Cycle.remaining]
      omega
  | wait =>
    simp only [ServerStat.step] at hs
    split at hs
    · rename_i hg
      cases hs
      simp only [Cycle.remaining, hg.2.2]
      simp
    · cases hs

/-- A schedule that runs has exactly the length by which `remaining` drops. -/
theorem remaining_exec {c c₁ : Cycle} (sched : List Action) (hs : exec c sched = some c₁) :
    c₁.remaining + sched.length = c.remaining := by
  induction sched generalizing c with
  | nil =>
    simp only [ServerStat.exec, Option.some.injEq] at hs
    simp [hs]
  | cons a rest ih =>
    simp only [ServerStat.exec] at hs
    cases hstep : ServerStat.step c a with
    | none => simp [hstep] at hs
    | some c₂ =>
      rw [hstep] at hs
      have h1 := ih hs
      have h2 := remaining_step hstep
      simp only [List.length_cons]
      omega

/-- A running checker is never held up by its send: the channel has room. -/
theorem check_enabled {settings : Settings} {c : Cycle} (h : Cycle.Inv settings c)
    (i : Nat) (server : String) (net : Network) (now : Nat)
    (hi : c.checkers[i]? = some server) :
    step c (.check i net now) = some { c with
      checkers := c.checkers.eraseIdx i
      eventSource := c.eventSource ++
        [(httpStatusChecker net now server settings.httptimeout_ms c.eventSource).status]
      emitted := c.emitted ++
        [(httpStatusChecker net now server settings.httptimeout_ms c.eventSource).status] } := by
  obtain ⟨n1, n2, n3⟩ := inv_counts h
  have hlen := length_eraseIdx_add_one c.checkers i server hi
  have hroom : c.eventSource.length < c.capacity := by
    rw [h.capacity_eq]
    omega
  simp only [ServerStat.step, hi, hroom, if_true, httpStatusChecker_target, h.settings_eq]

/-- Once the driver is past `wg.Wait()`, nothing is left in flight: every target
was dispatched, every checker has sent, every record was received and every
`addRecord` is done. -/
theorem inv_quiescent {settings : Settings} {c : Cycle} (h : Cycle.Inv settings c)
    (hz : c.pending = [] ∧ c.wg = 0) :
    c.dispatched = settings.servers ∧ c.checkers = [] ∧ c.eventSource = [] ∧
    c.adders = [] ∧ c.done.length = settings.servers.length ∧
    List.Perm c.done c.emitted ∧
    List.Perm (c.emitted.map fun st => st.url) (settings.servers.map probeUrl) := by
  obtain ⟨n1, n2, n3⟩ := inv_counts h
  have hc := h.counter
  rw [hz.2] at hc
  have hp : c.pending.length = 0 := by rw [hz.1]; rfl
  have hd : c.dispatched = settings.servers := by
    have := h.dispatched_pending
    rwa [hz.1, List.append_nil] at this
  have h1 : c.checkers = [] := List.eq_nil_of_length_eq_zero (by omega)
  have h2 : c.eventSource = [] := List.eq_nil_of_length_eq_zero (by omega)
  have h3 : c.adders = [] := List.eq_nil_of_length_eq_zero (by omega)
  refine ⟨hd, h1, h2, h3, by omega, ?_, ?_⟩
  · have := h.emitted_split
    rwa [h2, h3, List.nil_append, List.nil_append] at this
  · have := h.emitted_checkers
    rwa [h1, hd, List.map_nil, List.append_nil] at this

/-- A cycle that is not complete is never stuck: the driver, a checker, the
monitor or an `addRecord` can move, whatever the network and the store answer. -/
theorem inv_progress {settings : Settings} {c : Cycle} (h : Cycle.Inv settings c)
    (hw : c.waited = false) (net : Network) (now : Nat) (ins : InsertResult) :
    ∃ a c₁, step c a = some c₁ ∧
      (a = .dispatch ∨ a = .check 0 net now ∨ a = .receive ∨ a = .persist 0 ins ∨
        a = .wait) := by
  obtain ⟨n1, n2, n3⟩ := inv_counts h
  cases hp : c.pending with
  | cons server rest =>
    exact ⟨.dispatch, _, by simp only [ServerStat.step, hp]; rfl, Or.inl rfl⟩
  | nil =>
    cases hk : c.checkers with
    | cons server rest =>
      have hi : c.checkers[0]? = some server := by rw [hk]; simp
      exact ⟨.check 0 net now, _, check_enabled h 0 server net now hi, Or.inr (Or.inl rfl)⟩
    | nil =>
      cases he : c.eventSource with
      | cons status rest =>
        exact ⟨.receive, _, step_receive.mpr ⟨status, rest, he, rfl⟩,
          Or.inr (Or.inr (Or.inl rfl))⟩
      | nil =>
        cases ha : c.adders with
        | cons status rest =>
          have hj : c.adders[0]? = some status := by rw [ha]; simp
          exact ⟨.persist 0 ins, _, by simp only [ServerStat.step, hj]; rfl,
            Or.inr (Or.inr (Or.inr (Or.inl rfl)))⟩
        | nil =>
          refine ⟨.wait, { c with waited := true }, ?_, Or.inr (Or.inr (Or.inr (Or.inr rfl)))⟩
          have hc := h.counter
          have l1 : c.pending.length = 0 := by rw [hp]; rfl
          have l2 : c.checkers.length = 0 := by rw [hk]; rfl
          have l3 : c.eventSource.length = 0 := by rw [he]; rfl
          have l4 : c.adders.length = 0 := by rw [ha]; rfl
          have hz : c.wg = 0 := by omega
          simp [ServerStat.step, hp, hz, hw]

/-- An action other than a failed insert leaves the panic flag as it is. -/
theorem step_panicked {c c₁ : Cycle} {a : Action} (net : Network) (now : Nat) (id : Int)
    (hs : step c a = some c₁)
    (ha : a = .dispatch ∨ a = .check 0 net now ∨ a = .receive ∨
      a = .persist 0 (.id id) ∨ a = .wait) :
    c₁.panicked = c.panicked := by
  rcases ha with rfl | rfl | rfl | rfl | rfl
  · simp only [ServerStat.step] at hs
    split at hs <;> cases hs
    rfl
  · simp only [ServerStat.step] at hs
    split at hs
    · cases hs
    · split at hs <;> cases hs
      rfl
  · obtain ⟨status, rest, -, rfl⟩ := step_receive.mp hs
    rfl
  · simp only [ServerStat.step] at hs
    split at hs <;> cases hs
    simp [addRecord, Outcome.returned]
  · simp only [ServerStat.step] at hs
    split at hs <;> cases hs
    rfl

/-- From every state reached the cycle runs to completion, whatever the network
answers, as long as the store accepts the inserts: there is a schedule, all of
whose checks use the given network and clock and all of whose inserts succeed,
that ends with the driver past `wg.Wait()` and raises no panic. -/
theorem inv_completes {settings : Settings} (net : Network) (now : Nat)
    (id : Int) (n : Nat) :
    ∀ c : Cycle, Cycle.Inv settings c → c.remaining = n →
      ∃ rest c₁, exec c rest = some c₁ ∧ c₁.waited = true ∧ c₁.panicked = c.panicked ∧
        ∀ a ∈ rest, a = .dispatch ∨ a = .check 0 net now ∨ a = .receive ∨
          a = .persist 0 (.id id) ∨ a = .wait := by
  induction n with
  | zero =>
    intro c h hn
    refine ⟨[], c, rfl, ?_, rfl, by simp⟩
    cases hw : c.waited with
    | true => rfl
    | false => simp [Cycle.remaining, hw] at hn
  | succ n ih =>
    intro c h hn
    cases hw : c.waited with
    | true => exact ⟨[], c, rfl, hw, rfl, by simp⟩
    | false =>
      obtain ⟨a, c₂, hstep, ha⟩ := inv_progress h hw net now (.id id)
      have hr := remaining_step hstep
      obtain ⟨rest, c₁, hrun, hdone, hpan, hall⟩ := ih c₂ (inv_step h hstep) (by omega)
      refine ⟨a :: rest, c₁, ?_, hdone, hpan.trans (step_panicked net now id hstep ha), ?_⟩
      · simp only [ServerStat.exec, hstep, Option.bind]
        exact hrun
      · intro b hb
        rcases List.mem_cons.mp hb with rfl | hb
        · exact ha
        · exact hall b hb

/-- The counting of one cycle: in every state that a cycle on target list
`settings.servers` reaches,
the driver has started one checker per target dealt with, in list order; every
checker started is still running or has sent exactly one record, whose URL is
the URL it requested; a running checker can always send its record, whatever
the GET handed back; once the driver is past its wait the URLs of the records
sent are, as a multiset, the URLs requested for the targets; and the cycle can
always run on to that point when the store accepts the inserts. -/
theorem cycle_one_record_per_target (settings : Settings) (sched : List Action) (c : Cycle)
    (h : exec (Cycle.init settings) sched = some c) :
    c.dispatched ++ c.pending = settings.servers ∧
    List.Perm (c.emitted.map (fun st => st.url) ++ c.checkers.map probeUrl)
      (c.dispatched.map probeUrl) ∧
    (∀ (i : Nat) (server : String) (net : Network) (now : Nat),
      c.checkers[i]? = some server →
      ∃ c₁, step c (.check i net now) = some c₁ ∧
        c₁.checkers = c.checkers.eraseIdx i ∧
        c₁.emitted = c.emitted ++
          [(httpStatusChecker net now server settings.httptimeout_ms c.eventSource).status]) ∧
    (c.waited = true →
      c.dispatched = settings.servers ∧ c.checkers = [] ∧
      (↑(c.emitted.map fun st => st.url) : Multiset String) =
        ↑(settings.servers.map probeUrl)) ∧
    (∀ (net : Network) (now : Nat) (id : Int), c.panicked = false →
      ∃ rest c₁, exec c rest = some c₁ ∧ c₁.waited = true ∧ c₁.panicked = false ∧
        (↑(c₁.emitted.map fun st => st.url) : Multiset String) =
          ↑(settings.servers.map probeUrl) ∧
        ∀ a ∈ rest, a = .dispatch ∨ a = .check 0 net now ∨ a = .receive ∨
          a = .persist 0 (.id id) ∨ a = .wait) := by
  have hinv := inv_exec sched (inv_init settings) h
  refine ⟨hinv.dispatched_pending, hinv.emitted_checkers, ?_, ?_, ?_⟩
  · intro i server net now hi
    exact ⟨_, check_enabled hinv i server net now hi, rfl, rfl⟩
  · intro hw
    obtain ⟨q1, q2, -, -, -, -, q7⟩ := inv_quiescent hinv (hinv.waited_zero hw)
    exact ⟨q1, q2, Multiset.coe_eq_coe.mpr q7⟩
  · intro net now id hp
    obtain ⟨rest, c₁, hrun, hw, hpan, hall⟩ := inv_completes net now id c.remaining c hinv rfl
    have hinv₁ := inv_exec rest hinv hrun
    obtain ⟨-, -, -, -, -, -, q7⟩ := inv_quiescent hinv₁ (hinv₁.waited_zero hw)
    exact ⟨rest, c₁, hrun, hw, hpan.trans hp, Multiset.coe_eq_coe.mpr q7, hall⟩

/-- The counting of one cycle on the targets example.com and httpbin.org: the
second checker fails first, the first one is answered 200, both records are
received and stored, and the records sent carry the two URLs requested. -/
theorem cycle_one_record_per_target_witness :
    exec (Cycle.init (sampleSettings ["example.com", "httpbin.org"])) sampleFullSchedule =
      some sampleEndCycle ∧
    (↑(sampleEndCycle.emitted.map fun st => st.url) : Multiset String) =
      ↑(["https://example.com", "httpbin.org"] : List String) :=
  ⟨rfl, ((cycle_one_record_per_target (sampleSettings ["example.com", "httpbin.org"])
    sampleFullSchedule sampleEndCycle rfl).2.2.2.1 rfl).2.2⟩

/-- Where the target does not start with the four letters http, or starts with
a scheme prefix, the URL requested is the normalised target of the specification. -/
theorem probeUrl_eq_specNormalise (url : String)
    (h : HasPrefix url "http" = false ∨ HasPrefix url "http://" = true ∨
      HasPrefix url "https://" = true) :
    probeUrl url = specNormalise url := by
  rcases h with h | h | h
  · have h1 : HasPrefix url "http://" = false := by
      cases hc : HasPrefix url "http://" with
      | false => rfl
      | true => rw [HasPrefix_of_append url "http" "://" hc] at h; cases h
    have h2 : HasPrefix url "https://" = false := by
      cases hc : HasPrefix url "https://" with
      | false => rfl
      | true => rw [HasPrefix_of_append url "http" "s://" hc] at h; cases h
    simp [probeUrl, specNormalise, h, h1, h2]
  · rw [probeUrl_of_scheme url (Or.inl h)]
    simp [specNormalise, h]
  · rw [probeUrl_of_scheme url (Or.inr h)]
    simp [specNormalise, h]

/-- The part of the record claim that holds: when no target starts with the
letters http without starting with a scheme prefix, the URLs of the records
sent in a completed cycle are, as a multiset, the normalised targets. -/
theorem cycle_records_normalised (settings : Settings) (sched : List Action) (c : Cycle)
    (h : exec (Cycle.init settings) sched = some c) (hw : c.waited = true)
    (hL : ∀ url ∈ settings.servers, HasPrefix url "http" = false ∨
      HasPrefix url "http://" = true ∨ HasPrefix url "https://" = true) :
    (↑(c.emitted.map fun st => st.url) : Multiset String) =
      ↑(settings.servers.map specNormalise) := by
  have hinv := inv_exec sched (inv_init settings) h
  obtain ⟨-, -, -, -, -, -, q7⟩ := inv_quiescent hinv (hinv.waited_zero hw)
  rw [Multiset.coe_eq_coe.mpr q7]
  congr 1
  exact List.map_congr_left fun url hu => probeUrl_eq_specNormalise url (hL url hu)

/-- The case of `cycle_records_normalised` on the targets example.com and
https://bad.invalid:9999. -/
theorem cycle_records_normalised_witness :
    (↑(["https://bad.invalid:9999", "https://example.com"] : List String) :
      Multiset String) =
      ↑((sampleSettings ["example.com", "https://bad.invalid:9999"]).servers.map
        specNormalise) :=
  cycle_records_normalised (sampleSettings ["example.com", "https://bad.invalid:9999"])
    [.dispatch, .dispatch, .check 1 deadNet 10, .check 0 sampleNet 11, .receive, .receive,
      .persist 0 (.id 1), .persist 0 (.id 2), .wait]
    { settings := sampleSettings ["example.com", "https://bad.invalid:9999"]
      pending := []
      waited := true
      checkers := []
      eventSource := []
      capacity := 2
      adders := []
      wg := 0
      rows := [⟨false, "https://bad.invalid:9999", 17⟩, ⟨true, "https://example.com", 14⟩]
      panicked := false
      dispatched := ["example.com", "https://bad.invalid:9999"]
      emitted := [⟨false, "https://bad.invalid:9999", 17⟩, ⟨true, "https://example.com", 14⟩]
      done := [⟨false, "https://bad.invalid:9999", 17⟩, ⟨true, "https://example.com", 14⟩] }
    rfl rfl (by decide)

/-- C3 at the target list with the one target httpbin.org: whatever the GET
hands back, the cycle runs to its end with exactly one checker started and
exactly one record sent and stored, but the URL of that record is httpbin.org,
while the normalised target is https://httpbin.org: the multiset of record URLs
is not the multiset of normalised targets. -/
theorem cycle_httpbin_record (net : Network) (now : Nat) (id : Int) :
    ∃ c : Cycle,
      exec (Cycle.init (sampleSettings ["httpbin.org"]))
        [.dispatch, .check 0 net now, .receive, .persist 0 (.id id), .wait] = some c ∧
      c.waited = true ∧ c.panicked = false ∧
      c.dispatched = ["httpbin.org"] ∧
      c.emitted.length = 1 ∧ c.rows = c.emitted ∧
      c.emitted.map (fun st => st.url) = ["httpbin.org"] ∧
      (sampleSettings ["httpbin.org"]).servers.map specNormalise = ["https://httpbin.org"] ∧
      (↑(c.emitted.map fun st => st.url) : Multiset String) ≠
        ↑((sampleSettings ["httpbin.org"]).servers.map specNormalise) := by
  refine ⟨_, rfl, rfl, rfl, rfl, rfl, rfl, rfl, by decide, ?_⟩
  intro h
  have hperm := Multiset.coe_eq_coe.mp h
  have hmem : "httpbin.org" ∈ (sampleSettings ["httpbin.org"]).servers.map specNormalise :=
    hperm.subset (List.mem_singleton.mpr rfl)
  revert hmem
  decide

/-- C8: in every state that a cycle on N targets reaches, the counter, set to N
at the start, is N less the number of `addRecord` calls done; the records given
to an `addRecord` (running or done) and those still in the channel are exactly
the records sent; only the end of an `addRecord` changes the counter, by one;
and the driver gets past its wait only when N calls of `addRecord` are done,
with N rows inserted unless one of them panicked. -/
theorem wait_after_all_persisted (settings : Settings) (sched : List Action) (c : Cycle)
    (h : exec (Cycle.init settings) sched = some c) :
    (Cycle.init settings).wg = (settings.servers.length : Int) ∧
    c.wg = (settings.servers.length : Int) - (c.done.length : Int) ∧
    List.Perm (c.eventSource ++ c.adders ++ c.done) c.emitted ∧
    (∀ (j : Nat) (ins : InsertResult) (c₁ : Cycle), step c (.persist j ins) = some c₁ →
      c₁.wg = c.wg - 1 ∧ c₁.done.length = c.done.length + 1) ∧
    (∀ (a : Action) (c₁ : Cycle), step c a = some c₁ →
      (∀ (j : Nat) (ins : InsertResult), a ≠ .persist j ins) →
      c₁.wg = c.wg ∧ c₁.done = c.done) ∧
    (∀ c₁ : Cycle, step c .wait = some c₁ → c.done.length = settings.servers.length) ∧
    (c.waited = true →
      c.done.length = settings.servers.length ∧ c.adders = [] ∧ c.eventSource = [] ∧
      (c.panicked = false → c.rows.length = settings.servers.length)) := by
  have hinv := inv_exec sched (inv_init settings) h
  refine ⟨rfl, hinv.counter, hinv.emitted_split, ?_, ?_, ?_, ?_⟩
  · intro j ins c₁ hs
    simp only [ServerStat.step] at hs
    split at hs
    · cases hs
    · cases hs
      cases ins <;> simp [addRecord]
  · intro a c₁ hs hne
    cases a with
    | dispatch =>
      simp only [ServerStat.step] at hs
      split at hs <;> cases hs
      exact ⟨rfl, rfl⟩
    | check i net now =>
      simp only [ServerStat.step] at hs
      split at hs
      · cases hs
      · split at hs <;> cases hs
        exact ⟨rfl, rfl⟩
    | receive =>
      obtain ⟨status, rest, -, rfl⟩ := step_receive.mp hs
      exact ⟨rfl, rfl⟩
    | persist j ins => exact absurd rfl (hne j ins)
    | wait =>
      simp only [ServerStat.step] at hs
      split at hs <;> cases hs
      exact ⟨rfl, rfl⟩
  · intro c₁ hs
    simp only [ServerStat.step] at hs
    split at hs
    · rename_i hg
      exact (inv_quiescent hinv ⟨hg.1, hg.2.1⟩).2.2.2.2.1
    · cases hs
  · intro hw
    obtain ⟨-, -, q3, q4, q5, -, -⟩ := inv_quiescent hinv (hinv.waited_zero hw)
    refine ⟨q5, q4, q3, ?_⟩
    intro hp
    rw [hinv.rows_done.2 hp]
    exact q5

/-- C8 on the targets example.com and httpbin.org: after the first of the two
`addRecord` calls is done the counter is 2 - 1 and the driver cannot get past
its wait. -/
theorem wait_after_all_persisted_witness :
    exec (Cycle.init (sampleSettings ["example.com", "httpbin.org"])) sampleSchedule =
      some sampleMidCycle ∧
    sampleMidCycle.wg = ((2 : Nat) : Int) - ((1 : Nat) : Int) ∧
    step sampleMidCycle .wait = none :=
  ⟨rfl, (wait_after_all_persisted (sampleSettings ["example.com", "httpbin.org"])
    sampleSchedule sampleMidCycle rfl).2.1, rfl⟩

/-- The head of `workerUnit` returns the state in which the goroutines start. -/
theorem workerUnit_ret (env : Env) (c : Cycle) (h : workerUnit env = .ret c) :
    c = Cycle.init c.settings ∧
    readSettings env.config "settings.yaml" = .ret c.settings ∧
    createConnection env.sql (connStr c.settings) = .ret ⟨connStr c.settings⟩ := by
  unfold workerUnit at h
  cases hr : readSettings env.config "settings.yaml" with
  | panicked m => simp [hr, Outcome.bind] at h
  | exited k => simp [hr, Outcome.bind] at h
  | ret settings =>
    cases hc : createConnection env.sql (connStr settings) with
    | panicked m => simp [hr, hc, Outcome.bind] at h
    | exited k => simp [hr, hc, Outcome.bind] at h
    | ret db =>
      simp only [hr, hc, Outcome.bind, Outcome.ret.injEq] at h
      subst h
      refine ⟨rfl, rfl, ?_⟩
      simp only [Cycle.init]
      rw [hc]
      have : db = ⟨connStr settings⟩ := by
        unfold createConnection at hc
        simp only at hc
        split at hc
        · cases hc
        · split at hc
          · cases hc
          · split at hc
            · cases hc
            · split at hc
              · cases hc
              · cases hc
                rfl
      rw [this]

/-- C10: when the settings load, the store is open and the target list is
empty, the cycle starts with counter 0 and a channel of capacity 0; the one
action that can move is the return of the driver from its wait, which it can
take at once; and in every state the cycle reaches no checker was started, no
record was sent, no `addRecord` was started or done, no row was inserted and
nothing panicked. -/
theorem empty_target_list (env : Env) (c₀ : Cycle) (h : workerUnit env = .ret c₀)
    (hL : c₀.settings.servers = []) :
    c₀.wg = 0 ∧ c₀.capacity = 0 ∧ c₀.pending = [] ∧
    exec c₀ [.wait] = some { c₀ with waited := true } ∧
    (∀ (a : Action) (c : Cycle), step c₀ a = some c → a = .wait) ∧
    (∀ (sched : List Action) (c : Cycle), exec c₀ sched = some c →
      c.dispatched = [] ∧ c.checkers = [] ∧ c.emitted = [] ∧ c.eventSource = [] ∧
      c.adders = [] ∧ c.done = [] ∧ c.rows = [] ∧ c.panicked = false ∧ c.wg = 0 ∧
      (sched = [] ∨ sched = [.wait])) := by
  obtain ⟨hinit, -, -⟩ := workerUnit_ret env c₀ h
  have hw : c₀.wg = 0 := by rw [hinit]; simp [Cycle.init, hL]
  have hp : c₀.pending = [] := by rw [hinit]; simp [Cycle.init, hL]
  have hk : c₀.checkers = [] := by rw [hinit]; rfl
  have he : c₀.eventSource = [] := by rw [hinit]; rfl
  have ha : c₀.adders = [] := by rw [hinit]; rfl
  have hwt : c₀.waited = false := by rw [hinit]; rfl
  have hstep : ∀ (a : Action) (c : Cycle), step c₀ a = some c →
      a = .wait ∧ c = { c₀ with waited := true } := by
    intro a c hs
    cases a with
    | dispatch => simp [ServerStat.step, hp] at hs
    | check i net now => simp [ServerStat.step, hk] at hs
    | receive => simp [ServerStat.step, monitorServerStatus, he] at hs
    | persist j ins => simp [ServerStat.step, ha] at hs
    | wait =>
      simp only [ServerStat.step] at hs
      split at hs
      · cases hs
        exact ⟨rfl, rfl⟩
      · cases hs
  have hwait : step c₀ .wait = some { c₀ with waited := true } := by
    simp [ServerStat.step, hp, hw, hwt]
  have hstuck : ∀ (a : Action), step { c₀ with waited := true } a = none := by
    intro a
    cases a with
    | dispatch => simp [ServerStat.step, hp]
    | check i net now => simp [ServerStat.step, hk]
    | receive => simp [ServerStat.step, monitorServerStatus, he]
    | persist j ins => simp [ServerStat.step, ha]
    | wait => simp [ServerStat.step]
  have hfacts : c₀.dispatched = [] ∧ c₀.checkers = [] ∧ c₀.emitted = [] ∧
      c₀.eventSource = [] ∧ c₀.adders = [] ∧ c₀.done = [] ∧ c₀.rows = [] ∧
      c₀.panicked = false ∧ c₀.wg = 0 := by
    refine ⟨?_, hk, ?_, he, ha, ?_, ?_, ?_, hw⟩ <;> (rw [hinit]; rfl)
  refine ⟨hw, ?_, hp, ?_, fun a c hs => (hstep a c hs).1, ?_⟩
  · rw [hinit]; simp [Cycle.init, hL]
  · simp only [ServerStat.exec, hwait, Option.bind]
  · intro sched c hs
    cases sched with
    | nil =>
      simp only [ServerStat.exec, Option.some.injEq] at hs
      subst hs
      obtain ⟨f1, f2, f3, f4, f5, f6, f7, f8, f9⟩ := hfacts
      exact ⟨f1, f2, f3, f4, f5, f6, f7, f8, f9, Or.inl rfl⟩
    | cons a rest =>
      simp only [ServerStat.exec] at hs
      cases hs₁ : ServerStat.step c₀ a with
      | none => simp [hs₁] at hs
      | some c₁ =>
        obtain ⟨rfl, rfl⟩ := hstep a c₁ hs₁
        rw [hs₁] at hs
        simp only [Option.bind] at hs
        cases rest with
        | nil =>
          simp only [ServerStat.exec, Option.some.injEq] at hs
          subst hs
          obtain ⟨f1, f2, f3, f4, f5, f6, f7, f8, f9⟩ := hfacts
          exact ⟨f1, f2, f3, f4, f5, f6, f7, f8, f9, Or.inr rfl⟩
        | cons b rest₂ =>
          simp [ServerStat.exec, hstuck b] at hs

/-- C10 on a sample configuration with an empty target list. -/
theorem empty_target_list_witness :
    workerUnit (sampleEnv (sampleDoc [])) = .ret (Cycle.init (sampleSettings [])) ∧
    exec (Cycle.init (sampleSettings [])) [.wait] =
      some { Cycle.init (sampleSettings []) with waited := true } ∧
    ({ Cycle.init (sampleSettings []) with waited := true } : Cycle).rows = [] :=
  ⟨rfl, (empty_target_list (sampleEnv (sampleDoc [])) (Cycle.init (sampleSettings []))
      rfl rfl).2.2.2.1, rfl⟩

end ServerStat

namespace ServerStat

/-! ## Loading the settings -/

/-- Whether `readSettings` returns does not depend on what `cfg.UInt` answers. -/
theorem readSettings_ignores_UInt (file : String) (parsed : Config) (f : String → Int)
    (location : String) :
    (readSettings ⟨fun _ => (file, none), fun _ => some { parsed with cfgUInt := f }⟩
      location).returned =
    (readSettings ⟨fun _ => (file, none), fun _ => some parsed⟩ location).returned := by
  simp only [readSettings, Option.isSome_none, Bool.false_eq_true, if_false]
  split_ifs <;> first
    | rfl
    | (cases serverList (parsed.cfgList "servers").1 <;> rfl)

/-- A configuration in which `cfg.String` answers an error for one of the keys
host, port, database, user, pass, or `cfg.List` answers an error for servers,
makes `readSettings` panic, and so `workerUnit`: no cycle starts. -/
theorem readSettings_missing_key (env : Env) (parsed : Config) (file : String)
    (hf : env.config.ReadFile "settings.yaml" = (file, none))
    (hp : env.config.ParseYaml file = some parsed)
    (hmiss : (parsed.cfgString "host").2.isSome = true ∨
      (parsed.cfgString "port").2.isSome = true ∨
      (parsed.cfgString "database").2.isSome = true ∨
      (parsed.cfgList "servers").2.isSome = true ∨
      (parsed.cfgString "user").2.isSome = true ∨
      (parsed.cfgString "pass").2.isSome = true) :
    ∃ msg, readSettings env.config "settings.yaml" = .panicked msg ∧
      workerUnit env = .panicked msg := by
  have key : ∃ msg, readSettings env.config "settings.yaml" = .panicked msg := by
    simp only [readSettings, hf, hp, Option.isSome_none, Bool.false_eq_true, if_false]
    split_ifs <;> first
      | exact ⟨_, rfl⟩
      | (exfalso; simp_all)
  obtain ⟨msg, hmsg⟩ := key
  exact ⟨msg, hmsg, by simp [workerUnit, hmsg, Outcome.bind]⟩

/-- The case of `readSettings_missing_key` on a document without the key pass. -/
theorem readSettings_missing_key_witness :
    ∃ msg, readSettings (sampleEnv ((sampleDoc ["example.com"]).without "pass")).config
        "settings.yaml" = .panicked msg ∧
      workerUnit (sampleEnv ((sampleDoc ["example.com"]).without "pass")) = .panicked msg :=
  readSettings_missing_key (sampleEnv ((sampleDoc ["example.com"]).without "pass"))
    ((sampleDoc ["example.com"]).without "pass").config "" rfl rfl
    (Or.inr (Or.inr (Or.inr (Or.inr (Or.inr (by decide))))))

/-- C5 at a document that has every key except httptimeout_ms: `readSettings`
does not panic, it returns settings with timeout 0; `workerUnit` goes on to the
cycle and its first probe is dispatched. -/
theorem readSettings_without_timeout :
    ((sampleDoc ["example.com"]).without "httptimeout_ms").ints = [] ∧
    readSettings (sampleEnv ((sampleDoc ["example.com"]).without "httptimeout_ms")).config
      "settings.yaml" = .ret { sampleSettings ["example.com"] with httptimeout_ms := 0 } ∧
    workerUnit (sampleEnv ((sampleDoc ["example.com"]).without "httptimeout_ms")) =
      .ret (Cycle.init { sampleSettings ["example.com"] with httptimeout_ms := 0 }) ∧
    (step (Cycle.init { sampleSettings ["example.com"] with httptimeout_ms := 0 })
      .dispatch).isSome = true := by
  refine ⟨by decide, by decide, ?_, rfl⟩
  rfl

end ServerStat

namespace StatBrowser

/-! ## The handler of /refresh -/

/-- Writing a body keeps a status already sent. -/
theorem status_Write (w : ResponseWriter) (text : String) (code : Nat)
    (h : w.status = some code) : (w.Write text).status = some code := by
  simp [ResponseWriter.Write, ResponseWriter.WriteHeader, h]

/-- The first write on a writer with no status sent sends status 200. -/
theorem status_Write_fresh (w : ResponseWriter) (text : String) (h : w.status = none) :
    (w.Write text).status = some 200 := by
  simp [ResponseWriter.Write, ResponseWriter.WriteHeader, h]

/-- The function `http.Error` keeps a status already sent. -/
theorem status_Error (w : ResponseWriter) (text : String) (code code₁ : Nat)
    (h : w.status = some code) : (Error w text code₁).status = some code := by
  simp [Error, ResponseWriter.Write, ResponseWriter.WriteHeader, ResponseWriter.Set,
    ResponseWriter.Del, h]

/-- The function `http.Error` on a writer with no status sent sends its code. -/
theorem status_Error_fresh (w : ResponseWriter) (text : String) (code : Nat)
    (h : w.status = none) : (Error w text code).status = some code := by
  simp [Error, ResponseWriter.Write, ResponseWriter.WriteHeader, ResponseWriter.Set,
    ResponseWriter.Del, h]

/-- The function `refresh` never returns a non-nil error: a failed select
panics, a row that cannot be scanned and an iteration error exit the process. -/
theorem refresh_ret_nil (db : DB) (statuses : ServerStatuses) (err : Option String)
    (h : refresh db = .ret (statuses, err)) : err = none := by
  unfold refresh at h
  rcases db with ⟨⟨rows, qerr⟩⟩
  cases qerr with
  | some e => simp at h
  | none =>
    simp only [Option.isSome_none, Bool.false_eq_true, if_false] at h
    cases hr : refreshRows rows.scans [] with
    | panicked m => simp [hr, Outcome.bind] at h
    | exited k => simp [hr, Outcome.bind] at h
    | ret sts =>
      simp only [hr, Outcome.bind] at h
      cases he : rows.Err with
      | some e => simp [he] at h
      | none =>
        simp only [he, Option.isSome_none, Bool.false_eq_true, if_false,
          Outcome.ret.injEq, Prod.mk.injEq] at h
        exact h.2.symm

/-- The loop over the rows does not return once a row cannot be scanned. -/
theorem refreshRows_scan_error (scans : List ((String × String × String) × Option String))
    (statuses : ServerStatuses) (h : ∃ row ∈ scans, row.2.isSome = true) :
    refreshRows scans statuses = .exited 1 := by
  induction scans generalizing statuses with
  | nil => simp at h
  | cons row rest ih =>
    rcases row with ⟨⟨url, available, time⟩, err⟩
    cases err with
    | some e => simp [refreshRows]
    | none =>
      simp only [refreshRows, Option.isSome_none, Bool.false_eq_true, if_false]
      apply ih
      obtain ⟨row, hmem, hrow⟩ := h
      rcases List.mem_cons.mp hmem with rfl | hmem
      · simp at hrow
      · exact ⟨row, hmem, hrow⟩

/-- The loop over the rows never panics. -/
theorem refreshRows_not_panicked (scans : List ((String × String × String) × Option String))
    (statuses : ServerStatuses) (msg : String) :
    refreshRows scans statuses ≠ .panicked msg := by
  induction scans generalizing statuses with
  | nil => simp [refreshRows]
  | cons row rest ih =>
    rcases row with ⟨⟨url, available, time⟩, err⟩
    cases err with
    | some e => simp [refreshRows]
    | none =>
      simp only [refreshRows, Option.isSome_none, Bool.false_eq_true, if_false]
      exact ih _

/-- On every query failure (the select fails, a row cannot be scanned, the
iteration reports an error) `refresh` does not return to the handler, and the
handler does not return either: no response, and so no status 500, is written. -/
theorem refresh_failure_not_returned (db : DB)
    (encode : ServerStatuses → String × Option String) (w : ResponseWriter) (r : Request)
    (h : db.Query.2.isSome = true ∨ (∃ row ∈ db.Query.1.scans, row.2.isSome = true) ∨
      db.Query.1.Err.isSome = true) :
    (refresh db).returned = false ∧ (refreshHandler db encode w r).returned = false := by
  have key : (refresh db).returned = false := by
    unfold refresh
    rcases db with ⟨⟨rows, qerr⟩⟩
    cases qerr with
    | some e => simp [Outcome.returned]
    | none =>
      simp only [Option.isSome_none, Bool.false_eq_true, if_false]
      rcases h with h | h | h
      · simp at h
      · rw [refreshRows_scan_error rows.scans [] h]
        rfl
      · cases hr : refreshRows rows.scans [] with
        | panicked m => rfl
        | exited k => rfl
        | ret sts =>
          simp only [Outcome.bind]
          simp only at h
          simp [h, Outcome.returned]
  refine ⟨key, ?_⟩
  unfold refreshHandler
  cases hr : refresh db with
  | ret a => simp [hr, Outcome.returned] at key
  | panicked m => rfl
  | exited k => rfl

/-- The three query failures on sample stores: the select fails, a row cannot be
scanned, the iteration reports an error. -/
theorem refresh_failure_not_returned_witness :
    (refresh queryFailsDB).returned = false ∧
    (refresh scanFailsDB).returned = false ∧
    (refresh iterationFailsDB).returned = false :=
  ⟨(refresh_failure_not_returned queryFailsDB sampleEncode .fresh ⟨"GET"⟩
      (Or.inl rfl)).1,
    (refresh_failure_not_returned scanFailsDB sampleEncode .fresh ⟨"GET"⟩
      (Or.inr (Or.inl ⟨_, List.mem_singleton.mpr rfl, rfl⟩))).1,
    (refresh_failure_not_returned iterationFailsDB sampleEncode .fresh ⟨"GET"⟩
      (Or.inr (Or.inr rfl))).1⟩

/-- C9 at a store on which the select fails (and at one whose row cannot be
scanned, and at one whose iteration fails): `refresh` panics with the error (or
exits the process with code 1), the handler does not get an error back and
writes no response with status 500. -/
theorem refresh_query_failure :
    refresh queryFailsDB = .panicked "pq: relation servers does not exist" ∧
    refreshHandler queryFailsDB sampleEncode .fresh ⟨"GET"⟩ =
      .panicked "pq: relation servers does not exist" ∧
    refresh scanFailsDB = .exited 1 ∧
    refreshHandler scanFailsDB sampleEncode .fresh ⟨"GET"⟩ = .exited 1 ∧
    refresh iterationFailsDB = .exited 1 ∧
    refreshHandler iterationFailsDB sampleEncode .fresh ⟨"GET"⟩ = .exited 1 := by
  refine ⟨?_, ?_, ?_, ?_, ?_, ?_⟩ <;> rfl

/-- A request whose method is not POST never gets status 405 from the handler. -/
theorem refresh_not_post (db : DB) (encode : ServerStatuses → String × Option String)
    (r : Request) (w : ResponseWriter) (hm : r.Method ≠ MethodPost)
    (h : refreshHandler db encode .fresh r = .ret w) :
    w.status = some 200 ∨ w.status = some StatusInternalServerError := by
  unfold refreshHandler at h
  have hne : (r.Method == MethodPost) = false := by simpa using hm
  simp only [hne, Bool.false_eq_true, if_false] at h
  cases hr : refresh db with
  | panicked m => simp [hr, Outcome.bind] at h
  | exited k => simp [hr, Outcome.bind] at h
  | ret a =>
    rcases a with ⟨results, err⟩
    have hnil := refresh_ret_nil db results err hr
    subst hnil
    simp only [hr, Outcome.bind, Option.isSome_none, Bool.false_eq_true, if_false,
      Outcome.ret.injEq] at h
    subst h
    have h0 : (ResponseWriter.fresh.Set "Content-Type" "application/json").status = none := rfl
    rcases encode results with ⟨text, _ | e⟩
    · exact Or.inl (status_Write_fresh _ _ h0)
    · exact Or.inr (status_Error_fresh _ _ _ h0)

/-- The case of `refresh_not_post` for a PUT request on a sample store. -/
theorem refresh_not_post_witness :
    refreshHandler sampleDB sampleEncode .fresh ⟨"PUT"⟩ = .ret sampleServed ∧
    (sampleServed.status = some 200 ∨ sampleServed.status = some StatusInternalServerError) :=
  ⟨rfl, refresh_not_post sampleDB sampleEncode ⟨"PUT"⟩ sampleServed (by decide) rfl⟩

/-- A POST request gets status 405 and the text of the handler, when the handler
returns; the handler still runs the query and appends its result to the body. -/
theorem refresh_post (db : DB) (encode : ServerStatuses → String × Option String)
    (w : ResponseWriter) (h : refreshHandler db encode .fresh ⟨MethodPost⟩ = .ret w) :
    w.status = some StatusMethodNotAllowed ∧
    HasPrefix w.body "Only GET method is allowed\n" = true := by
  unfold refreshHandler at h
  simp only [beq_self_eq_true, if_true] at h
  cases hr : refresh db with
  | panicked m => simp [hr, Outcome.bind] at h
  | exited k => simp [hr, Outcome.bind] at h
  | ret a =>
    rcases a with ⟨results, err⟩
    have hnil := refresh_ret_nil db results err hr
    subst hnil
    simp only [hr, Outcome.bind, Option.isSome_none, Bool.false_eq_true, if_false,
      Outcome.ret.injEq] at h
    subst h
    rcases encode results with ⟨text, _ | e⟩
    · constructor
      · rfl
      · simp [HasPrefix, Error, ResponseWriter.Write, ResponseWriter.WriteHeader,
          ResponseWriter.Set, ResponseWriter.Del, ResponseWriter.fresh]
    · constructor
      · rfl
      · simp [HasPrefix, Error, ResponseWriter.Write, ResponseWriter.WriteHeader,
          ResponseWriter.Set, ResponseWriter.Del, ResponseWriter.fresh]

/-- The case of `refresh_post` on a sample store. -/
theorem refresh_post_witness :
    (∃ w, refreshHandler sampleDB sampleEncode .fresh ⟨MethodPost⟩ = .ret w) ∧
    ∀ w, refreshHandler sampleDB sampleEncode .fresh ⟨MethodPost⟩ = .ret w →
      w.status = some StatusMethodNotAllowed ∧
      HasPrefix w.body "Only GET method is allowed\n" = true :=
  ⟨⟨_, rfl⟩, fun w h => refresh_post sampleDB sampleEncode w h⟩

/-- C7 at the methods PUT, DELETE, HEAD and PATCH on a sample store: the handler
writes status 200 and the rows as JSON, not status 405, and the text of the
error is not in the body. -/
theorem refresh_put_served :
    refreshHandler sampleDB sampleEncode .fresh ⟨"PUT"⟩ = .ret sampleServed ∧
    refreshHandler sampleDB sampleEncode .fresh ⟨"DELETE"⟩ = .ret sampleServed ∧
    refreshHandler sampleDB sampleEncode .fresh ⟨"HEAD"⟩ = .ret sampleServed ∧
    refreshHandler sampleDB sampleEncode .fresh ⟨"PATCH"⟩ = .ret sampleServed ∧
    sampleServed.status = some 200 ∧
    sampleServed.status ≠ some StatusMethodNotAllowed ∧
    HasPrefix sampleServed.body "Only GET method is allowed" = false := by
  refine ⟨rfl, rfl, rfl, rfl, rfl, by decide, by decide⟩

end StatBrowser
